import Mathlib

/-!
Verification of the rebalance simulator and chart probe (src/main.py).

The simulator `simulate_growth` is embedded over the reals (Python floats
are modelled as exact real arithmetic); the imperative month loop becomes a
fold over `List.range' 1 months` carrying the mutable state (holdings,
cumulative contribution, output lists) explicitly.  The chart probe
(`on_move`) arithmetic is over the rationals; the matplotlib renderer
geometry query is abstracted as a function from an offset to the resulting
box rectangle, exactly the shape of the `get_window_extent` call in the
loop.
-/

namespace Rebalance

/-- Mirrors the `InvestmentMethod` dataclass: name, annual return (percent),
target weight (percent). -/
structure InvestmentMethod where
  name : String
  annual_return : ℝ
  target_weight : ℝ

/-- Source line `(1 + m.annual_return / 100.0) ** (1 / 12) - 1`:
the equivalent monthly compounding rate, via the real power function. -/
noncomputable def monthly_rate (m : InvestmentMethod) : ℝ :=
  (1 + m.annual_return / 100) ^ ((1 : ℝ) / 12) - 1

/-- Source lines `for i in range(len(holdings)): holdings[i] *= (1 + monthly_rates[i])`:
every holding grows by its own monthly rate (rates are positional with methods). -/
noncomputable def growHoldings (methods : List InvestmentMethod) (holdings : List ℝ) :
    List ℝ :=
  (holdings.zip methods).map (fun p => p.1 * (1 + monthly_rate p.2))

/-- Whether month `m` is a rebalance event, the source condition
`rebalance_months > 0 and (month % rebalance_months == 0)`. -/
def rebalanceTrigger (rb : ℤ) (m : ℕ) : Prop := 0 < rb ∧ ((m : ℤ)) % rb = 0

instance (rb : ℤ) (m : ℕ) : Decidable (rebalanceTrigger rb m) := by
  unfold rebalanceTrigger; infer_instance

/-- The loop state of `simulate_growth`: the holdings vector, the running
cumulative contribution, and the three output lists being appended to. -/
structure SimState where
  holdings : List ℝ
  cum : ℝ
  timeline : List ℤ
  values : List ℝ
  contribs : List ℝ

/-- One iteration of the `for month in range(1, months + 1)` loop:
grow every holding, then if `rebalance_months > 0 and month % rebalance_months == 0`
add the clamped contribution and redistribute by target weights, finally append
month, `sum(holdings)` and the cumulative contribution to the output lists. -/
noncomputable def monthStep (rb : ℤ) (c : ℝ) (methods : List InvestmentMethod)
    (st : SimState) (month : ℕ) : SimState :=
  let grown := growHoldings methods st.holdings
  if rebalanceTrigger rb month then
    let added := max 0 c
    let cum2 := st.cum + added
    let total := grown.sum + added
    let h2 := methods.map (fun m => total * (m.target_weight / 100))
    ⟨h2, cum2, st.timeline ++ [(month : ℤ)], st.values ++ [h2.sum],
      st.contribs ++ [cum2]⟩
  else
    ⟨grown, st.cum, st.timeline ++ [(month : ℤ)], st.values ++ [grown.sum],
      st.contribs ++ [st.cum]⟩

/-- The whole month loop: seed holdings `principal * target_weight/100`,
output lists seeded with the index-0 entries, then fold the body over
months `1..months`. -/
noncomputable def runSim (principal : ℝ) (rb : ℤ) (c : ℝ)
    (methods : List InvestmentMethod) (months : ℕ) : SimState :=
  (List.range' 1 months).foldl (monthStep rb c methods)
    ⟨methods.map (fun m => principal * (m.target_weight / 100)), principal,
      [0], [principal], [principal]⟩

/-- Embedding of `simulate_growth`.  `None, None, None` (the single invalid-input
outcome) becomes `none`; a successful triple of lists becomes `some`.
The guard order is the source order: `years <= 0` short-circuit, then
`weight_sum <= 0`, then `abs(weight_sum - 100.0) > 0.01`, then
`any(m.annual_return < -100.0)`. -/
noncomputable def simulate_growth (principal : ℝ) (years : ℤ)
    (rebalance_months : ℤ) (contribution_per_rebalance : ℝ)
    (methods : List InvestmentMethod) : Option (List ℤ × List ℝ × List ℝ) :=
  if years ≤ 0 then some ([0], [principal], [principal])
  else if (methods.map InvestmentMethod.target_weight).sum ≤ 0 then none
  else if 0.01 < |(methods.map InvestmentMethod.target_weight).sum - 100| then none
  else if ∃ m ∈ methods, m.annual_return < -100 then none
  else
    let st := runSim principal rebalance_months contribution_per_rebalance
      methods (years.toNat * 12)
    some (st.timeline, st.values, st.contribs)

/-- Follows the spec's per-month description of the holdings vector: at month 0
the seeded holdings; each later month every holding is first grown by its own
monthly rate, then, at a rebalance event, `max(0, contribution)` joins the total
and the new total is redistributed so each holding equals
`total * targetWeightPercent/100`. -/
noncomputable def specHoldings (principal : ℝ) (rb : ℤ) (c : ℝ)
    (methods : List InvestmentMethod) : ℕ → List ℝ
  | 0 => methods.map (fun m => principal * (m.target_weight / 100))
  | n + 1 =>
    let grown := ((specHoldings principal rb c methods n).zip methods).map
      (fun p => p.1 * (1 + monthly_rate p.2))
    if rebalanceTrigger rb (n + 1) then
      let total := grown.sum + max 0 c
      methods.map (fun m => total * (m.target_weight / 100))
    else grown

/-- Follows the spec's description of the cumulative contribution: starts at
`principal` and increases by the clamped amount `max(0, contribution)` exactly
at rebalance events. -/
noncomputable def specCum (principal : ℝ) (rb : ℤ) (c : ℝ) : ℕ → ℝ
  | 0 => principal
  | n + 1 =>
    if rebalanceTrigger rb (n + 1) then specCum principal rb c n + max 0 c
    else specCum principal rb c n

/-! ## Chart probe (ChartWidget.on_move) -/

/-- A pixel-space rectangle, as matplotlib bounding boxes expose it:
`x0`/`x1` left and right edges, `y0`/`y1` bottom and top edges. -/
structure PixRect where
  x0 : ℚ
  x1 : ℚ
  y0 : ℚ
  y1 : ℚ

/-- Source constant `pad = 10`. -/
def pad : ℚ := 10

/-- The `candidates` list of `on_move`, in source order:
right-up, left-up, right-down, left-down, each paired with a horizontal
alignment string. -/
def candidates : List (ℚ × ℚ × String) :=
  [(pad, pad, "left"), (-pad, pad, "right"), (pad, -pad, "left"),
    (-pad, -pad, "right")]

/-- The four clamped overflow amounts of a candidate box past the axes
rectangle, summed — `overflow_left + overflow_right + overflow_bottom +
overflow_top` in the source, each `max(0, ...)`. -/
def overflow_area (axb bbox : PixRect) : ℚ :=
  max 0 (axb.x0 - bbox.x0) + max 0 (bbox.x1 - axb.x1) +
    max 0 (axb.y0 - bbox.y0) + max 0 (bbox.y1 - axb.y1)

/-- The candidate-selection loop of `on_move`.  `extent` abstracts
`self._info_box.get_window_extent(renderer)` as a function of the offset
just assigned to `xybox` (the only state the loop changes before querying).
`best` starts as `None`; a candidate replaces it only when its overflow is
strictly smaller, so the first candidate at the minimum is kept. -/
def choose_best (axb : PixRect) (extent : ℚ × ℚ → PixRect) :
    Option ((ℚ × ℚ × String) × ℚ) :=
  candidates.foldl
    (fun best cand =>
      let area := overflow_area axb (extent (cand.1, cand.2.1))
      match best with
      | none => some (cand, area)
      | some b => if area < b.2 then some (cand, area) else some b)
    none

/-- The overlay state touched by the placement code: the `xybox` offset and
the text alignment of the packed text areas. -/
structure OverlayBoxState where
  xybox : ℚ × ℚ
  align : String

/-- The overlay as `ChartWidget.plot` builds it: `xybox=(16, 16)` and the
`VPacker` created with `align="left"`. -/
def plot_overlay_state : OverlayBoxState :=
  { xybox := (16, 16), align := "left" }

/-- The placement tail of `on_move` when render geometry is available:
`ox, oy, _ha = best; self._info_box.xybox = (ox, oy)` — only the offset of
the winning candidate is applied; its alignment component is discarded and
the alignment of the overlay is left as it was. -/
def on_move_overlay (axb : PixRect) (extent : ℚ × ℚ → PixRect)
    (st : OverlayBoxState) : OverlayBoxState :=
  match choose_best axb extent with
  | some b => { st with xybox := (b.1.1, b.1.2.1) }
  | none => st

/-- Python's `min(it, key=f)` over a nonempty iterator, given as first
element plus rest: keeps the current best and replaces it only on a strictly
smaller key, so the first element attaining the minimum wins ties. -/
def py_min_key (key : ℕ → ℚ) (b : ℕ) : List ℕ → ℕ
  | [] => b
  | i :: t => py_min_key key (if key i < key b then i else b) t

/-- Source line `idx = min(range(len(self._xs)), key=lambda i: abs(self._xs[i] - x))`:
`min` over `range(n)` starts from index 0 and scans indices `1..n-1`;
on an empty series Python's `min` raises, modelled as `none`. -/
def nearest_index (xs : List ℚ) (x : ℚ) : Option ℕ :=
  if xs.length = 0 then none
  else some (py_min_key (fun j => |xs.getD j 0 - x|) 0
    (List.range' 1 (xs.length - 1)))

/-! ## Trace lemmas: the month loop versus the per-index recursion -/

lemma runSim_succ (p : ℝ) (rb : ℤ) (c : ℝ) (ms : List InvestmentMethod)
    (n : ℕ) :
    runSim p rb c ms (n + 1) = monthStep rb c ms (runSim p rb c ms n) (n + 1) := by
  unfold runSim
  rw [show List.range' 1 (n + 1) = List.range' 1 n ++ [n + 1] by
    rw [@List.range'_concat 1 1 n, one_mul, Nat.add_comm 1 n], List.foldl_append]
  simp only [List.foldl_cons, List.foldl_nil]

lemma runSim_trace (p : ℝ) (rb : ℤ) (c : ℝ) (ms : List InvestmentMethod)
    (n : ℕ) :
    (runSim p rb c ms n).holdings = specHoldings p rb c ms n ∧
    (runSim p rb c ms n).cum = specCum p rb c n ∧
    (runSim p rb c ms n).timeline = (List.range (n + 1)).map Int.ofNat ∧
    (runSim p rb c ms n).values =
      p :: (List.range' 1 n).map (fun m => (specHoldings p rb c ms m).sum) ∧
    (runSim p rb c ms n).contribs = p :: (List.range' 1 n).map (specCum p rb c) := by
  induction n with
  | zero =>
    refine ⟨rfl, rfl, ?_, rfl, rfl⟩
    simp [runSim, List.range_succ]
  | succ n ih =>
    obtain ⟨ih1, ih2, ih3, ih4, ih5⟩ := ih
    rw [runSim_succ]
    have hconc : List.range' 1 (n + 1) = List.range' 1 n ++ [n + 1] := by
      rw [@List.range'_concat 1 1 n, one_mul, Nat.add_comm 1 n]
    by_cases h : rebalanceTrigger rb (n + 1)
    · simp only [monthStep, if_pos h, ih1, ih2, ih3, ih4, ih5]
      refine ⟨?_, ?_, ?_, ?_, ?_⟩
      · simp [specHoldings, growHoldings, if_pos h]
      · simp [specCum, if_pos h]
      · rw [List.range_succ (n + 1), List.map_append]
        rfl
      · rw [hconc, List.map_append]
        simp [specHoldings, growHoldings, if_pos h]
      · rw [hconc, List.map_append]
        simp [specCum, if_pos h]
    · simp only [monthStep, if_neg h, ih1, ih2, ih3, ih4, ih5]
      refine ⟨?_, ?_, ?_, ?_, ?_⟩
      · simp [specHoldings, growHoldings, if_neg h]
      · simp [specCum, if_neg h]
      · rw [List.range_succ (n + 1), List.map_append]
        rfl
      · rw [hconc, List.map_append]
        simp [specHoldings, growHoldings, if_neg h]
      · rw [hconc, List.map_append]
        simp [specCum, if_neg h]

lemma runSim_timeline_len (p : ℝ) (rb : ℤ) (c : ℝ)
    (ms : List InvestmentMethod) (n : ℕ) :
    (runSim p rb c ms n).timeline.length = n + 1 := by
  rw [(runSim_trace p rb c ms n).2.2.1]
  simp

lemma runSim_values_len (p : ℝ) (rb : ℤ) (c : ℝ)
    (ms : List InvestmentMethod) (n : ℕ) :
    (runSim p rb c ms n).values.length = n + 1 := by
  rw [(runSim_trace p rb c ms n).2.2.2.1]
  simp

lemma runSim_contribs_len (p : ℝ) (rb : ℤ) (c : ℝ)
    (ms : List InvestmentMethod) (n : ℕ) :
    (runSim p rb c ms n).contribs.length = n + 1 := by
  rw [(runSim_trace p rb c ms n).2.2.2.2]
  simp

lemma runSim_timeline_get (p : ℝ) (rb : ℤ) (c : ℝ)
    (ms : List InvestmentMethod) (n m : ℕ) (hm : m ≤ n) :
    (runSim p rb c ms n).timeline.get? m = some (m : ℤ) := by
  rw [(runSim_trace p rb c ms n).2.2.1, List.get?_eq_getElem?,
    List.getElem?_map, List.getElem?_range (by omega : m < n + 1)]
  rfl

lemma runSim_values_get_zero (p : ℝ) (rb : ℤ) (c : ℝ)
    (ms : List InvestmentMethod) (n : ℕ) :
    (runSim p rb c ms n).values.get? 0 = some p := by
  rw [(runSim_trace p rb c ms n).2.2.2.1]
  rfl

lemma runSim_contribs_get_zero (p : ℝ) (rb : ℤ) (c : ℝ)
    (ms : List InvestmentMethod) (n : ℕ) :
    (runSim p rb c ms n).contribs.get? 0 = some p := by
  rw [(runSim_trace p rb c ms n).2.2.2.2]
  rfl

lemma runSim_values_get (p : ℝ) (rb : ℤ) (c : ℝ)
    (ms : List InvestmentMethod) (n m : ℕ) (h1 : 1 ≤ m) (hm : m ≤ n) :
    (runSim p rb c ms n).values.get? m = some ((specHoldings p rb c ms m).sum) := by
  rw [(runSim_trace p rb c ms n).2.2.2.1]
  obtain ⟨k, rfl⟩ : ∃ k, m = k + 1 := ⟨m - 1, by omega⟩
  rw [show (p :: (List.range' 1 n).map fun m => (specHoldings p rb c ms m).sum).get?
      (k + 1) = ((List.range' 1 n).map fun m => (specHoldings p rb c ms m).sum).get? k
    from rfl, List.get?_eq_getElem?, List.getElem?_map,
    show (List.range' 1 n)[k]? = some (1 + k) by
      simpa using List.getElem?_range' 1 1 (by omega : k < n)]
  simp [Nat.add_comm]

lemma runSim_contribs_get (p : ℝ) (rb : ℤ) (c : ℝ)
    (ms : List InvestmentMethod) (n m : ℕ) (h1 : 1 ≤ m) (hm : m ≤ n) :
    (runSim p rb c ms n).contribs.get? m = some (specCum p rb c m) := by
  rw [(runSim_trace p rb c ms n).2.2.2.2]
  obtain ⟨k, rfl⟩ : ∃ k, m = k + 1 := ⟨m - 1, by omega⟩
  rw [show (p :: (List.range' 1 n).map (specCum p rb c)).get? (k + 1) =
      ((List.range' 1 n).map (specCum p rb c)).get? k from rfl,
    List.get?_eq_getElem?, List.getElem?_map,
    show (List.range' 1 n)[k]? = some (1 + k) by
      simpa using List.getElem?_range' 1 1 (by omega : k < n)]
  simp [Nat.add_comm]

/-- On the success path (`years > 0`, all three validity checks pass) the
simulator returns exactly the three lists of the month loop. -/
lemma simulate_growth_pos (p : ℝ) (years rb : ℤ) (c : ℝ)
    (ms : List InvestmentMethod) (hy : 0 < years)
    (hw1 : ¬ (ms.map InvestmentMethod.target_weight).sum ≤ 0)
    (hw2 : ¬ (0.01 : ℝ) < |(ms.map InvestmentMethod.target_weight).sum - 100|)
    (hr : ¬ ∃ m ∈ ms, m.annual_return < -100) :
    simulate_growth p years rb c ms =
      some ((runSim p rb c ms (years.toNat * 12)).timeline,
        (runSim p rb c ms (years.toNat * 12)).values,
        (runSim p rb c ms (years.toNat * 12)).contribs) := by
  unfold simulate_growth
  rw [if_neg (not_le.mpr hy), if_neg hw1, if_neg hw2, if_neg hr]

lemma specCum_of_nonpos (p c : ℝ) (rb : ℤ) (hrb : rb ≤ 0) (n : ℕ) :
    specCum p rb c n = p := by
  induction n with
  | zero => rfl
  | succ n ih =>
    have h : ¬ rebalanceTrigger rb (n + 1) := fun h => absurd h.1 (not_lt.mpr hrb)
    simp [specCum, h, ih]

lemma specCum_step_le (p c : ℝ) (rb : ℤ) (n : ℕ) :
    specCum p rb c n ≤ specCum p rb c (n + 1) := by
  by_cases h : rebalanceTrigger rb (n + 1)
  · rw [show specCum p rb c (n + 1) = specCum p rb c n + max 0 c by
      simp [specCum, h]]
    exact le_add_of_nonneg_right (le_max_left 0 c)
  · rw [show specCum p rb c (n + 1) = specCum p rb c n by simp [specCum, h]]

lemma chain_le_map_range' (f : ℕ → ℝ) (hf : ∀ k, f k ≤ f (k + 1)) :
    ∀ (n s : ℕ), List.Chain' (fun a b => a ≤ b) ((List.range' s n).map f) := by
  intro n
  induction n with
  | zero => intro s; simp
  | succ n ih =>
    intro s
    rw [List.range'_succ s n 1, List.map_cons, List.chain'_cons']
    refine ⟨?_, ih (s + 1)⟩
    intro y hy
    cases n with
    | zero => simp at hy
    | succ k =>
      rw [List.range'_succ (s + 1) k 1, List.map_cons] at hy
      simp only [List.head?_cons, Option.mem_def, Option.some.injEq] at hy
      rw [← hy]
      exact hf s

lemma negret_not_exists (ms : List InvestmentMethod)
    (hr : ∀ m ∈ ms, -100 ≤ m.annual_return) :
    ¬ ∃ m ∈ ms, m.annual_return < -100 := by
  rintro ⟨m, hm, hlt⟩
  exact absurd (hr m hm) (not_le.mpr hlt)

/-! ## Claim theorems for the simulator -/

/-- Claim C7: for every principal, rebalance period, contribution and asset
list, a call with `years <= 0` returns exactly the single-point success
`([0], [principal], [principal])`, regardless of the other parameters. -/
theorem c7_years_nonpos_degenerate (p : ℝ) (years rb : ℤ) (c : ℝ)
    (ms : List InvestmentMethod) (hy : years ≤ 0) :
    simulate_growth p years rb c ms = some ([0], [p], [p]) := by
  unfold simulate_growth
  rw [if_pos hy]

/-- Witness for C7 at `years = 0` with an invalid weight sum, showing the
degenerate success regardless of the other parameters. -/
theorem c7_years_nonpos_degenerate_witness :
    (0 : ℤ) ≤ 0 ∧
      simulate_growth 5000 0 12 250 [⟨"Stock", 7, 60⟩] =
        some ([0], [5000], [5000]) :=
  ⟨le_refl 0, c7_years_nonpos_degenerate 5000 0 12 250 [⟨"Stock", 7, 60⟩] (le_refl 0)⟩

/-- Claim C6: every successful call with `years > 0` yields three equal-length
sequences of length `years*12 + 1`, with `monthIndex[m] = m` at every index,
`totalValue[0] = principal` and `cumulativeContribution[0] = principal`. -/
theorem c6_result_shape (p : ℝ) (years rb : ℤ) (c : ℝ)
    (ms : List InvestmentMethod) (hy : 0 < years)
    (hw1 : 0 < (ms.map InvestmentMethod.target_weight).sum)
    (hw2 : |(ms.map InvestmentMethod.target_weight).sum - 100| ≤ 0.01)
    (hr : ∀ m ∈ ms, -100 ≤ m.annual_return) :
    ∃ T V C, simulate_growth p years rb c ms = some (T, V, C) ∧
      T.length = years.toNat * 12 + 1 ∧ V.length = years.toNat * 12 + 1 ∧
      C.length = years.toNat * 12 + 1 ∧
      (∀ m : ℕ, m ≤ years.toNat * 12 → T.get? m = some (m : ℤ)) ∧
      V.get? 0 = some p ∧ C.get? 0 = some p := by
  refine ⟨_, _, _,
    simulate_growth_pos p years rb c ms hy (not_le.mpr hw1) (not_lt.mpr hw2)
      (negret_not_exists ms hr), ?_, ?_, ?_, ?_, ?_, ?_⟩
  · exact runSim_timeline_len p rb c ms (years.toNat * 12)
  · exact runSim_values_len p rb c ms (years.toNat * 12)
  · exact runSim_contribs_len p rb c ms (years.toNat * 12)
  · exact fun m hm => runSim_timeline_get p rb c ms (years.toNat * 12) m hm
  · exact runSim_values_get_zero p rb c ms (years.toNat * 12)
  · exact runSim_contribs_get_zero p rb c ms (years.toNat * 12)

/-- Witness for C6 at a concrete valid input. -/
theorem c6_result_shape_witness :
    (0 : ℤ) < 1 ∧
      (0 : ℝ) < ([⟨"Stock", 7, 60⟩, ⟨"Bond", 3, 40⟩].map
        InvestmentMethod.target_weight).sum ∧
      |([(⟨"Stock", 7, 60⟩ : InvestmentMethod), ⟨"Bond", 3, 40⟩].map
        InvestmentMethod.target_weight).sum - 100| ≤ 0.01 ∧
      (∃ T V C, simulate_growth 5000 1 12 250
          [⟨"Stock", 7, 60⟩, ⟨"Bond", 3, 40⟩] = some (T, V, C) ∧
        T.length = (1 : ℤ).toNat * 12 + 1 ∧ V.length = (1 : ℤ).toNat * 12 + 1 ∧
        C.length = (1 : ℤ).toNat * 12 + 1 ∧
        (∀ m : ℕ, m ≤ (1 : ℤ).toNat * 12 → T.get? m = some (m : ℤ)) ∧
        V.get? 0 = some 5000 ∧ C.get? 0 = some 5000) :=
  ⟨by norm_num, by simp; norm_num, by simp; norm_num,
    c6_result_shape 5000 1 12 250 [⟨"Stock", 7, 60⟩, ⟨"Bond", 3, 40⟩]
      (by norm_num) (by simp; norm_num) (by simp; norm_num)
      (by intro m hm; fin_cases hm <;> norm_num)⟩

/-- Claim C1: in every successful simulation with `years > 0` the internal
holdings follow the spec's per-month rule (grow each holding by its own
monthly rate, then at an exact multiple of a positive `rebalanceMonths`
add `max(0, contribution)` to the total and redistribute it by target
weights), the reported `totalValue[m]` is the sum of those holdings, the
reported `cumulativeContribution[m]` follows the spec's clamped-increment
rule, and when `rebalanceMonths <= 0` the cumulative contribution equals
`principal` at every index of the series. -/
theorem c1_month_rule (p : ℝ) (years rb : ℤ) (c : ℝ)
    (ms : List InvestmentMethod) (hy : 0 < years)
    (hw1 : 0 < (ms.map InvestmentMethod.target_weight).sum)
    (hw2 : |(ms.map InvestmentMethod.target_weight).sum - 100| ≤ 0.01)
    (hr : ∀ m ∈ ms, -100 ≤ m.annual_return) :
    ∃ T V C, simulate_growth p years rb c ms = some (T, V, C) ∧
      (runSim p rb c ms (years.toNat * 12)).holdings =
        specHoldings p rb c ms (years.toNat * 12) ∧
      (∀ m : ℕ, 1 ≤ m → m ≤ years.toNat * 12 →
        V.get? m = some ((specHoldings p rb c ms m).sum) ∧
        C.get? m = some (specCum p rb c m)) ∧
      (rb ≤ 0 → ∀ i : ℕ, i ≤ years.toNat * 12 → C.get? i = some p) := by
  refine ⟨_, _, _,
    simulate_growth_pos p years rb c ms hy (not_le.mpr hw1) (not_lt.mpr hw2)
      (negret_not_exists ms hr),
    (runSim_trace p rb c ms (years.toNat * 12)).1, ?_, ?_⟩
  · exact fun m h1 hm =>
      ⟨runSim_values_get p rb c ms (years.toNat * 12) m h1 hm,
        runSim_contribs_get p rb c ms (years.toNat * 12) m h1 hm⟩
  · intro hrb i hi
    rcases Nat.eq_zero_or_pos i with h0 | h1
    · rw [h0]
      exact runSim_contribs_get_zero p rb c ms (years.toNat * 12)
    · rw [runSim_contribs_get p rb c ms (years.toNat * 12) i h1 hi,
        specCum_of_nonpos p c rb hrb i]

/-- Witness for C1 at a concrete valid input with `rebalanceMonths <= 0`. -/
theorem c1_month_rule_witness :
    (0 : ℤ) < 1 ∧
      (0 : ℝ) < ([(⟨"Stock", 7, 100⟩ : InvestmentMethod)].map
        InvestmentMethod.target_weight).sum ∧
      |([(⟨"Stock", 7, 100⟩ : InvestmentMethod)].map
        InvestmentMethod.target_weight).sum - 100| ≤ 0.01 ∧
      (∃ T V C, simulate_growth 5000 1 0 250 [⟨"Stock", 7, 100⟩] =
          some (T, V, C) ∧
        (runSim 5000 0 250 [⟨"Stock", 7, 100⟩] ((1 : ℤ).toNat * 12)).holdings =
          specHoldings 5000 0 250 [⟨"Stock", 7, 100⟩] ((1 : ℤ).toNat * 12) ∧
        (∀ m : ℕ, 1 ≤ m → m ≤ (1 : ℤ).toNat * 12 →
          V.get? m = some ((specHoldings 5000 0 250 [⟨"Stock", 7, 100⟩] m).sum) ∧
          C.get? m = some (specCum 5000 0 250 m)) ∧
        ((0 : ℤ) ≤ 0 → ∀ i : ℕ, i ≤ (1 : ℤ).toNat * 12 → C.get? i = some 5000)) :=
  ⟨by norm_num, by norm_num, by norm_num,
    c1_month_rule 5000 1 0 250 [⟨"Stock", 7, 100⟩] (by norm_num)
      (by norm_num) (by norm_num)
      (by intro m hm; fin_cases hm; norm_num)⟩

/-- Claim C10 (implicit): whenever the simulator succeeds, the cumulative
contribution series is non-decreasing between consecutive indices. -/
theorem c10_contrib_monotone (p : ℝ) (years rb : ℤ) (c : ℝ)
    (ms : List InvestmentMethod) (T : List ℤ) (V C : List ℝ)
    (hs : simulate_growth p years rb c ms = some (T, V, C)) :
    List.Chain' (fun a b => a ≤ b) C := by
  unfold simulate_growth at hs
  split_ifs at hs with h1 h2 h3 h4
  · simp only [Option.some.injEq, Prod.mk.injEq] at hs
    rw [← hs.2.2]
    simp
  · simp only [Option.some.injEq, Prod.mk.injEq] at hs
    obtain ⟨-, -, hC⟩ := hs
    rw [← hC, (runSim_trace p rb c ms (years.toNat * 12)).2.2.2.2,
      show (p :: (List.range' 1 (years.toNat * 12)).map (specCum p rb c)) =
          (List.range' 0 (years.toNat * 12 + 1)).map (specCum p rb c) by
        rw [List.range'_succ 0 (years.toNat * 12) 1, List.map_cons]
        rfl]
    exact chain_le_map_range' (specCum p rb c)
      (fun k => specCum_step_le p c rb k) (years.toNat * 12 + 1) 0

/-- Witness for C10 at the degenerate `years = 0` success. -/
theorem c10_contrib_monotone_witness :
    simulate_growth 5000 0 12 250 [⟨"Stock", 7, 60⟩] =
        some ([0], [5000], [5000]) ∧
      List.Chain' (fun a b : ℝ => a ≤ b) [5000] := by
  have hs : simulate_growth 5000 0 12 250 [⟨"Stock", 7, 60⟩] =
      some ([0], [5000], [5000]) := by
    unfold simulate_growth
    norm_num
  exact ⟨hs, c10_contrib_monotone 5000 0 12 250 [⟨"Stock", 7, 60⟩]
    [0] [5000] [5000] hs⟩

/-- Counterexample to C3: the source returns the same value
`(None, None, None)` for an invalid weight sum and for an invalid annual
return, so the two failure causes are not two distinct, distinguishable
error kinds. -/
theorem c3_error_kinds_counterexample :
    simulate_growth 5000 1 12 0 [⟨"Stock", 5, 50⟩] = none ∧
      simulate_growth 5000 1 12 0 [⟨"Stock", -200, 100⟩] = none ∧
      simulate_growth 5000 1 12 0 [⟨"Stock", 5, 50⟩] =
        simulate_growth 5000 1 12 0 [⟨"Stock", -200, 100⟩] := by
  have h1 : simulate_growth 5000 1 12 0 [⟨"Stock", 5, 50⟩] = none := by
    unfold simulate_growth
    rw [if_neg (by norm_num : ¬ (1 : ℤ) ≤ 0), if_neg (by norm_num), if_pos (by norm_num)]
  have h2 : simulate_growth 5000 1 12 0 [⟨"Stock", -200, 100⟩] = none := by
    unfold simulate_growth
    rw [if_neg (by norm_num : ¬ (1 : ℤ) ≤ 0), if_neg (by norm_num),
      if_neg (by norm_num), if_pos ⟨⟨"Stock", -200, 100⟩, by simp, by norm_num⟩]
  exact ⟨h1, h2, by rw [h1, h2]⟩

/-- Claim C3 (amended): with `years > 0` the simulator fails exactly when the
weight sum is non-positive, or differs from 100 by more than 0.01, or some
annual return is below -100; the failure is the single outcome `none`,
distinguishable from success but identical for both failure causes. -/
theorem c3_invalid_iff (p : ℝ) (years rb : ℤ) (c : ℝ)
    (ms : List InvestmentMethod) (hy : 0 < years) :
    (simulate_growth p years rb c ms = none ↔
      (ms.map InvestmentMethod.target_weight).sum ≤ 0 ∨
      0.01 < |(ms.map InvestmentMethod.target_weight).sum - 100| ∨
      ∃ m ∈ ms, m.annual_return < -100) ∧
    (¬ ((ms.map InvestmentMethod.target_weight).sum ≤ 0 ∨
        0.01 < |(ms.map InvestmentMethod.target_weight).sum - 100| ∨
        ∃ m ∈ ms, m.annual_return < -100) →
      ∃ t, simulate_growth p years rb c ms = some t) := by
  constructor
  · unfold simulate_growth
    rw [if_neg (not_le.mpr hy)]
    split_ifs with h1 h2 h3
    · simp [h1]
    · simp [h2]
    · simp [h3]
    · simp [h1, h2, h3]
  · intro hn
    push_neg at hn
    obtain ⟨hn1, hn2, hn3⟩ := hn
    unfold simulate_growth
    rw [if_neg (not_le.mpr hy), if_neg (not_le.mpr hn1), if_neg (not_lt.mpr hn2),
      if_neg (negret_not_exists ms hn3)]
    exact ⟨_, rfl⟩

/-- Witness for C3 (amended) at a valid input: the failure condition is false
and the simulator indeed succeeds. -/
theorem c3_invalid_iff_witness :
    (0 : ℤ) < 1 ∧
      ((simulate_growth 5000 1 12 0 [⟨"Stock", 5, 100⟩] = none ↔
        ([(⟨"Stock", 5, 100⟩ : InvestmentMethod)].map
          InvestmentMethod.target_weight).sum ≤ 0 ∨
        0.01 < |([(⟨"Stock", 5, 100⟩ : InvestmentMethod)].map
          InvestmentMethod.target_weight).sum - 100| ∨
        ∃ m ∈ [(⟨"Stock", 5, 100⟩ : InvestmentMethod)],
          m.annual_return < -100) ∧
      (¬ (([(⟨"Stock", 5, 100⟩ : InvestmentMethod)].map
            InvestmentMethod.target_weight).sum ≤ 0 ∨
          0.01 < |([(⟨"Stock", 5, 100⟩ : InvestmentMethod)].map
            InvestmentMethod.target_weight).sum - 100| ∨
          ∃ m ∈ [(⟨"Stock", 5, 100⟩ : InvestmentMethod)],
            m.annual_return < -100) →
        ∃ t, simulate_growth 5000 1 12 0 [⟨"Stock", 5, 100⟩] = some t)) :=
  ⟨by norm_num, c3_invalid_iff 5000 1 12 0 [⟨"Stock", 5, 100⟩] (by norm_num)⟩

/-- Counterexample to C8: an annual return within 0.01 of -100 is still
rejected — the negative-return check is a strict comparison with -100,
not a tolerance-based one. -/
theorem c8_tolerance_counterexample :
    simulate_growth 5000 1 12 0 [⟨"Stock", -100.005, 100⟩] = none := by
  unfold simulate_growth
  rw [if_neg (by norm_num : ¬ (1 : ℤ) ≤ 0), if_neg (by norm_num),
    if_neg (by norm_num),
    if_pos ⟨⟨"Stock", -100.005, 100⟩, by simp, by norm_num⟩]

/-- Claim C8 (amended): for `years > 0` the weight-sum validation accepts any
sum within 0.01 of 100 (for example 100.005), but the negative-return
validation has no tolerance: any asset with annual return strictly below
-100 — including -100.005 — is rejected. -/
theorem c8_return_check_strict (p : ℝ) (years rb : ℤ) (c : ℝ)
    (ms : List InvestmentMethod) (hy : 0 < years) :
    ((∃ m ∈ ms, m.annual_return < -100) →
      simulate_growth p years rb c ms = none) ∧
    (0 < (ms.map InvestmentMethod.target_weight).sum →
      |(ms.map InvestmentMethod.target_weight).sum - 100| ≤ 0.01 →
      (∀ m ∈ ms, -100 ≤ m.annual_return) →
      ∃ t, simulate_growth p years rb c ms = some t) := by
  constructor
  · intro hex
    unfold simulate_growth
    rw [if_neg (not_le.mpr hy)]
    split_ifs with h1 h2 <;> rfl
  · intro hw1 hw2 hr
    unfold simulate_growth
    rw [if_neg (not_le.mpr hy), if_neg (not_le.mpr hw1), if_neg (not_lt.mpr hw2),
      if_neg (negret_not_exists ms hr)]
    exact ⟨_, rfl⟩

/-- Witness for C8 (amended): a weight sum of 100.005 together with a return
of -100.005; the return is rejected while the weight sum alone would be
accepted. -/
theorem c8_return_check_strict_witness :
    (0 : ℤ) < 1 ∧
      (((∃ m ∈ [(⟨"Stock", -100.005, 100.005⟩ : InvestmentMethod)],
          m.annual_return < -100) →
        simulate_growth 5000 1 12 0 [⟨"Stock", -100.005, 100.005⟩] = none) ∧
      (0 < ([(⟨"Stock", -100.005, 100.005⟩ : InvestmentMethod)].map
          InvestmentMethod.target_weight).sum →
        |([(⟨"Stock", -100.005, 100.005⟩ : InvestmentMethod)].map
          InvestmentMethod.target_weight).sum - 100| ≤ 0.01 →
        (∀ m ∈ [(⟨"Stock", -100.005, 100.005⟩ : InvestmentMethod)],
          -100 ≤ m.annual_return) →
        ∃ t, simulate_growth 5000 1 12 0 [⟨"Stock", -100.005, 100.005⟩] =
          some t)) :=
  ⟨by norm_num,
    c8_return_check_strict 5000 1 12 0 [⟨"Stock", -100.005, 100.005⟩]
      (by norm_num)⟩

/-! ## Claim C4: geometric monthly-rate conversion over one year -/

lemma specHoldings_single (p r : ℝ) (rb : ℤ) (c : ℝ) (nm : String)
    (hnc : max 0 c = 0 ∨ rb ≤ 0 ∨ 12 < rb) :
    ∀ m : ℕ, m ≤ 12 →
      specHoldings p rb c [⟨nm, r, 100⟩] m =
        [p * ((1 + r / 100) ^ ((1 : ℝ) / 12)) ^ m] := by
  intro m
  induction m with
  | zero =>
    intro _
    simp [specHoldings]
  | succ m ih =>
    intro hm
    have ihm := ih (by omega)
    have hgrow : ((specHoldings p rb c [⟨nm, r, 100⟩] m).zip
        [(⟨nm, r, 100⟩ : InvestmentMethod)]).map
        (fun q => q.1 * (1 + monthly_rate q.2)) =
        [p * ((1 + r / 100) ^ ((1 : ℝ) / 12)) ^ (m + 1)] := by
      rw [ihm]
      simp only [List.zip_cons_cons, List.zip_nil_right, List.map_cons,
        List.map_nil, monthly_rate]
      rw [pow_succ]
      ring_nf
    by_cases htrig : rebalanceTrigger rb (m + 1)
    · have hc0 : max 0 c = 0 := by
        rcases hnc with h | h | h
        · exact h
        · exact absurd htrig.1 (not_lt.mpr h)
        · exfalso
          have hdvd : rb ∣ ((m + 1 : ℕ) : ℤ) := Int.dvd_of_emod_eq_zero htrig.2
          have hle : rb ≤ ((m + 1 : ℕ) : ℤ) :=
            Int.le_of_dvd (by positivity) hdvd
          have : ((m + 1 : ℕ) : ℤ) ≤ 12 := by exact_mod_cast hm
          omega
      simp only [specHoldings, if_pos htrig, hgrow, hc0, List.sum_cons,
        List.sum_nil, List.map_cons, List.map_nil]
      norm_num
    · simp only [specHoldings, if_neg htrig, hgrow]

/-- Counterexample to C4: with an unconstrained contribution parameter the
claim fails — a single asset with weight 100 and return 0, monthly
rebalancing and a contribution of 100 gives `totalValue[12] = 1300`, not
`principal * (1 + r/100) = 100`. -/
theorem c4_exact_annual_counterexample :
    simulate_growth 100 1 1 100 [⟨"Stock", 0, 100⟩] =
      some ((runSim 100 1 100 [⟨"Stock", 0, 100⟩] 12).timeline,
        (runSim 100 1 100 [⟨"Stock", 0, 100⟩] 12).values,
        (runSim 100 1 100 [⟨"Stock", 0, 100⟩] 12).contribs) ∧
    (runSim 100 1 100 [⟨"Stock", 0, 100⟩] 12).values.get? 12 = some 1300 ∧
    (1300 : ℝ) ≠ 100 * (1 + 0 / 100) := by
  have key : ∀ m : ℕ, specHoldings 100 1 100 [⟨"Stock", (0 : ℝ), 100⟩] m =
      [100 + 100 * (m : ℝ)] := by
    intro m
    induction m with
    | zero => simp [specHoldings]
    | succ m ih =>
      have htrig : rebalanceTrigger 1 (m + 1) := ⟨by norm_num, Int.emod_one _⟩
      simp only [specHoldings, if_pos htrig, ih, List.zip_cons_cons,
        List.zip_nil_right, List.map_cons, List.map_nil, monthly_rate,
        List.sum_cons, List.sum_nil]
      norm_num
      ring
  refine ⟨?_, ?_, by norm_num⟩
  · exact simulate_growth_pos 100 1 1 100 [⟨"Stock", 0, 100⟩] (by norm_num)
      (by norm_num) (by norm_num) (by norm_num)
  · rw [runSim_values_get 100 1 100 [⟨"Stock", 0, 100⟩] 12 12 (by norm_num)
      (by norm_num), key 12]
    norm_num

/-- Claim C4 (amended): for a single asset with weight 100 and return
`r >= -100` and `years >= 1`, provided no contribution can be added during
the first year (the clamped contribution is zero, or rebalancing is disabled,
or the rebalance period exceeds 12 months), one year of compounding at the
geometric monthly rate reproduces the nominal annual rate exactly:
`totalValue[12] = principal * (1 + r/100)`. -/
theorem c4_exact_annual_rate (p r : ℝ) (years rb : ℤ) (c : ℝ) (nm : String)
    (hy : 1 ≤ years) (hr : -100 ≤ r)
    (hnc : max 0 c = 0 ∨ rb ≤ 0 ∨ 12 < rb) :
    ∃ T V C, simulate_growth p years rb c [⟨nm, r, 100⟩] = some (T, V, C) ∧
      V.get? 12 = some (p * (1 + r / 100)) := by
  have h12 : 12 ≤ years.toNat * 12 := by omega
  refine ⟨_, _, _,
    simulate_growth_pos p years rb c [⟨nm, r, 100⟩] (by omega)
      (by norm_num) (by norm_num)
      (by
        rintro ⟨m, hm, hlt⟩
        simp only [List.mem_singleton] at hm
        rw [hm] at hlt
        exact absurd hr (not_le.mpr hlt)), ?_⟩
  rw [runSim_values_get p rb c [⟨nm, r, 100⟩] (years.toNat * 12) 12
    (by norm_num) h12, specHoldings_single p r rb c nm hnc 12 le_rfl]
  have hx : (0 : ℝ) ≤ 1 + r / 100 := by linarith
  rw [List.sum_cons, List.sum_nil, add_zero,
    ← Real.rpow_natCast ((1 + r / 100) ^ ((1 : ℝ) / 12)) 12,
    ← Real.rpow_mul hx]
  norm_num

/-- Witness for C4 (amended) at `principal = 100`, `r = 7`, `years = 1`,
annual rebalancing with zero contribution. -/
theorem c4_exact_annual_rate_witness :
    (1 : ℤ) ≤ 1 ∧ (-100 : ℝ) ≤ 7 ∧
      (max (0 : ℝ) 0 = 0 ∨ (12 : ℤ) ≤ 0 ∨ (12 : ℤ) < 12) ∧
      (∃ T V C, simulate_growth 100 1 12 0 [⟨"Stock", 7, 100⟩] =
          some (T, V, C) ∧
        V.get? 12 = some (100 * (1 + 7 / 100))) :=
  ⟨le_refl 1, by norm_num, Or.inl (by norm_num),
    c4_exact_annual_rate 100 7 1 12 0 "Stock" (le_refl 1) (by norm_num)
      (Or.inl (by norm_num))⟩

/-! ## Claim C5: nearest-sample lookup -/

lemma py_min_key_good (key : ℕ → ℚ) :
    ∀ (k s b : ℕ), b < s → (∀ j < s, key b ≤ key j) → (∀ j < b, key b < key j) →
      py_min_key key b (List.range' s k) < s + k ∧
      (∀ j < s + k, key (py_min_key key b (List.range' s k)) ≤ key j) ∧
      (∀ j < py_min_key key b (List.range' s k),
        key (py_min_key key b (List.range' s k)) < key j) := by
  intro k
  induction k with
  | zero =>
    intro s b hb hmin hstrict
    simp only [List.range', py_min_key]
    exact ⟨by omega, fun j hj => hmin j (by omega), hstrict⟩
  | succ k ih =>
    intro s b hb hmin hstrict
    rw [List.range'_succ s k 1]
    simp only [py_min_key]
    by_cases hc : key s < key b
    · rw [if_pos hc]
      obtain ⟨w1, w2, w3⟩ := ih (s + 1) s (by omega)
        (by
          intro j hj
          rcases Nat.lt_or_ge j s with hjs | hjs
          · exact le_of_lt (lt_of_lt_of_le hc (hmin j hjs))
          · have : j = s := by omega
            rw [this])
        (by
          intro j hj
          exact lt_of_lt_of_le hc (hmin j hj))
      exact ⟨by omega, fun j hj => w2 j (by omega), w3⟩
    · rw [if_neg hc]
      obtain ⟨w1, w2, w3⟩ := ih (s + 1) b (by omega)
        (by
          intro j hj
          rcases Nat.lt_or_ge j s with hjs | hjs
          · exact hmin j hjs
          · have : j = s := by omega
            rw [this]
            exact not_lt.mp hc)
        hstrict
      exact ⟨by omega, fun j hj => w2 j (by omega), w3⟩

/-- Claim C5: for a non-empty series and a pointer x, the probe picks the
index minimizing the absolute distance to the pointer over all indices, and
any strictly smaller index has a strictly larger distance (first-encountered
minimum wins ties). -/
theorem c5_nearest_index_min (xs : List ℚ) (x : ℚ) (hne : xs ≠ []) :
    ∃ idx, nearest_index xs x = some idx ∧ idx < xs.length ∧
      (∀ j < xs.length, |xs.getD idx 0 - x| ≤ |xs.getD j 0 - x|) ∧
      (∀ j < idx, |xs.getD idx 0 - x| < |xs.getD j 0 - x|) := by
  have hlen : xs.length ≠ 0 := fun h => hne (List.length_eq_zero.mp h)
  obtain ⟨w1, w2, w3⟩ := py_min_key_good (fun j => |xs.getD j 0 - x|)
    (xs.length - 1) 1 0 (by omega)
    (by
      intro j hj
      have : j = 0 := by omega
      rw [this])
    (fun j hj => absurd hj (Nat.not_lt_zero j))
  refine ⟨py_min_key (fun j => |xs.getD j 0 - x|) 0
    (List.range' 1 (xs.length - 1)), ?_, by omega, fun j hj => w2 j (by omega), w3⟩
  unfold nearest_index
  rw [if_neg hlen]

/-- Witness for C5 on the spec's example series `x = [0, 1, 2]` with pointer
`1.4`. -/
theorem c5_nearest_index_min_witness :
    ([0, 1, 2] : List ℚ) ≠ [] ∧
      (∃ idx, nearest_index [0, 1, 2] (7 / 5) = some idx ∧
        idx < ([0, 1, 2] : List ℚ).length ∧
        (∀ j < ([0, 1, 2] : List ℚ).length,
          |([0, 1, 2] : List ℚ).getD idx 0 - 7 / 5| ≤
            |([0, 1, 2] : List ℚ).getD j 0 - 7 / 5|) ∧
        (∀ j < idx,
          |([0, 1, 2] : List ℚ).getD idx 0 - 7 / 5| <
            |([0, 1, 2] : List ℚ).getD j 0 - 7 / 5|)) :=
  ⟨by simp, c5_nearest_index_min [0, 1, 2] (7 / 5) (by simp)⟩

/-! ## Claims C2 and C9: overlay placement -/

/-- Claim C2: for any plot rectangle and any box geometry, the selected
candidate is the one minimizing the total clamped overflow among the four
fixed offsets tried in the fixed order right-up, left-up, right-down,
left-down, and every candidate strictly earlier in that order has strictly
larger overflow (ties keep the first candidate evaluated), independent of
the pointer position. -/
theorem c2_overlay_least_overflow (axb : PixRect) (extent : ℚ × ℚ → PixRect) :
    ∃ cand k, choose_best axb extent =
        some (cand, overflow_area axb (extent (cand.1, cand.2.1))) ∧
      k < candidates.length ∧ candidates.get? k = some cand ∧
      overflow_area axb (extent (cand.1, cand.2.1)) ≤
        overflow_area axb (extent (pad, pad)) ∧
      overflow_area axb (extent (cand.1, cand.2.1)) ≤
        overflow_area axb (extent (-pad, pad)) ∧
      overflow_area axb (extent (cand.1, cand.2.1)) ≤
        overflow_area axb (extent (pad, -pad)) ∧
      overflow_area axb (extent (cand.1, cand.2.1)) ≤
        overflow_area axb (extent (-pad, -pad)) ∧
      (0 < k → overflow_area axb (extent (cand.1, cand.2.1)) <
        overflow_area axb (extent (pad, pad))) ∧
      (1 < k → overflow_area axb (extent (cand.1, cand.2.1)) <
        overflow_area axb (extent (-pad, pad))) ∧
      (2 < k → overflow_area axb (extent (cand.1, cand.2.1)) <
        overflow_area axb (extent (pad, -pad))) := by
  by_cases h1 : overflow_area axb (extent (-pad, pad)) <
      overflow_area axb (extent (pad, pad))
  · by_cases h2 : overflow_area axb (extent (pad, -pad)) <
        overflow_area axb (extent (-pad, pad))
    · by_cases h3 : overflow_area axb (extent (-pad, -pad)) <
          overflow_area axb (extent (pad, -pad))
      · exact ⟨(-pad, -pad, "right"), 3,
          by simp [choose_best, candidates, h1, h2, h3], by norm_num [candidates], rfl,
          by linarith, by linarith, by linarith, le_refl _,
          fun _ => by linarith, fun _ => by linarith, fun _ => by linarith⟩
      · exact ⟨(pad, -pad, "left"), 2,
          by simp [choose_best, candidates, h1, h2, h3], by norm_num [candidates], rfl,
          by linarith, by linarith, le_refl _, not_lt.mp h3,
          fun _ => by linarith, fun _ => by linarith,
          fun hk => absurd hk (by norm_num)⟩
    · by_cases h3 : overflow_area axb (extent (-pad, -pad)) <
          overflow_area axb (extent (-pad, pad))
      · exact ⟨(-pad, -pad, "right"), 3,
          by simp [choose_best, candidates, h1, h2, h3], by norm_num [candidates], rfl,
          by linarith, by linarith, by linarith, le_refl _,
          fun _ => by linarith, fun _ => by linarith, fun _ => by linarith⟩
      · exact ⟨(-pad, pad, "right"), 1,
          by simp [choose_best, candidates, h1, h2, h3], by norm_num [candidates], rfl,
          le_of_lt h1, le_refl _, not_lt.mp h2, not_lt.mp h3,
          fun _ => h1, fun hk => absurd hk (by norm_num),
          fun hk => absurd hk (by norm_num)⟩
  · by_cases h2 : overflow_area axb (extent (pad, -pad)) <
        overflow_area axb (extent (pad, pad))
    · by_cases h3 : overflow_area axb (extent (-pad, -pad)) <
          overflow_area axb (extent (pad, -pad))
      · exact ⟨(-pad, -pad, "right"), 3,
          by simp [choose_best, candidates, h1, h2, h3], by norm_num [candidates], rfl,
          by linarith, by linarith, by linarith, le_refl _,
          fun _ => by linarith, fun _ => by linarith, fun _ => by linarith⟩
      · exact ⟨(pad, -pad, "left"), 2,
          by simp [choose_best, candidates, h1, h2, h3], by norm_num [candidates], rfl,
          le_of_lt h2, by linarith, le_refl _, not_lt.mp h3,
          fun _ => by linarith, fun _ => by linarith,
          fun hk => absurd hk (by norm_num)⟩
    · by_cases h3 : overflow_area axb (extent (-pad, -pad)) <
          overflow_area axb (extent (pad, pad))
      · exact ⟨(-pad, -pad, "right"), 3,
          by simp [choose_best, candidates, h1, h2, h3], by norm_num [candidates], rfl,
          le_of_lt h3, by linarith, by linarith, le_refl _,
          fun _ => by linarith, fun _ => by linarith, fun _ => by linarith⟩
      · exact ⟨(pad, pad, "left"), 0,
          by simp [choose_best, candidates, h1, h2, h3], by norm_num [candidates], rfl,
          le_refl _, not_lt.mp h1, not_lt.mp h2, not_lt.mp h3,
          fun hk => absurd hk (by norm_num), fun hk => absurd hk (by norm_num),
          fun hk => absurd hk (by norm_num)⟩

/-- A concrete plot rectangle for exercising the placement rule. -/
def probeDemoAx : PixRect := ⟨0, 100, 0, 100⟩

/-- A concrete box geometry: a 20x10 box anchored at a point near the plot's
right and bottom edges, moved by the candidate offset.  Exactly one candidate
(left-up, offset `(-pad, pad)`) has zero overflow. -/
def probeDemoExtent (o : ℚ × ℚ) : PixRect :=
  ⟨90 + o.1, 110 + o.1, 5 + o.2, 15 + o.2⟩

/-- Witness for C2 on the concrete demo geometry. -/
theorem c2_overlay_least_overflow_witness :
    ∃ cand k, choose_best probeDemoAx probeDemoExtent =
        some (cand, overflow_area probeDemoAx
          (probeDemoExtent (cand.1, cand.2.1))) ∧
      k < candidates.length ∧ candidates.get? k = some cand ∧
      overflow_area probeDemoAx (probeDemoExtent (cand.1, cand.2.1)) ≤
        overflow_area probeDemoAx (probeDemoExtent (pad, pad)) ∧
      overflow_area probeDemoAx (probeDemoExtent (cand.1, cand.2.1)) ≤
        overflow_area probeDemoAx (probeDemoExtent (-pad, pad)) ∧
      overflow_area probeDemoAx (probeDemoExtent (cand.1, cand.2.1)) ≤
        overflow_area probeDemoAx (probeDemoExtent (pad, -pad)) ∧
      overflow_area probeDemoAx (probeDemoExtent (cand.1, cand.2.1)) ≤
        overflow_area probeDemoAx (probeDemoExtent (-pad, -pad)) ∧
      (0 < k → overflow_area probeDemoAx (probeDemoExtent (cand.1, cand.2.1)) <
        overflow_area probeDemoAx (probeDemoExtent (pad, pad))) ∧
      (1 < k → overflow_area probeDemoAx (probeDemoExtent (cand.1, cand.2.1)) <
        overflow_area probeDemoAx (probeDemoExtent (-pad, pad))) ∧
      (2 < k → overflow_area probeDemoAx (probeDemoExtent (cand.1, cand.2.1)) <
        overflow_area probeDemoAx (probeDemoExtent (pad, -pad))) :=
  c2_overlay_least_overflow probeDemoAx probeDemoExtent

lemma on_move_overlay_eq (axb : PixRect) (extent : ℚ × ℚ → PixRect)
    (st : OverlayBoxState) (b : (ℚ × ℚ × String) × ℚ)
    (hcb : choose_best axb extent = some b) :
    on_move_overlay axb extent st = { st with xybox := (b.1.1, b.1.2.1) } := by
  unfold on_move_overlay
  rw [hcb]

/-- Counterexample to C9: on the demo geometry the winning candidate is the
left-pointing offset `(-pad, pad)`, whose candidate alignment would be
"right", yet the alignment actually applied to the overlay stays the "left"
set at plot time — `on_move` discards the `_ha` component of the winner. -/
theorem c9_alignment_counterexample :
    (on_move_overlay probeDemoAx probeDemoExtent plot_overlay_state).xybox =
        (-pad, pad) ∧
      (on_move_overlay probeDemoAx probeDemoExtent plot_overlay_state).xybox.1 <
        0 ∧
      (on_move_overlay probeDemoAx probeDemoExtent plot_overlay_state).align =
        "left" ∧
      ("left" : String) ≠ "right" := by
  have h1 : overflow_area probeDemoAx (probeDemoExtent (-pad, pad)) <
      overflow_area probeDemoAx (probeDemoExtent (pad, pad)) := by
    norm_num [overflow_area, probeDemoAx, probeDemoExtent, pad]
  have h2 : ¬ overflow_area probeDemoAx (probeDemoExtent (pad, -pad)) <
      overflow_area probeDemoAx (probeDemoExtent (-pad, pad)) := by
    norm_num [overflow_area, probeDemoAx, probeDemoExtent, pad]
  have h3 : ¬ overflow_area probeDemoAx (probeDemoExtent (-pad, -pad)) <
      overflow_area probeDemoAx (probeDemoExtent (-pad, pad)) := by
    norm_num [overflow_area, probeDemoAx, probeDemoExtent, pad]
  have hcb : choose_best probeDemoAx probeDemoExtent =
      some ((-pad, pad, "right"),
        overflow_area probeDemoAx (probeDemoExtent (-pad, pad))) := by
    simp [choose_best, candidates, h1, h2, h3]
  rw [on_move_overlay_eq probeDemoAx probeDemoExtent plot_overlay_state _ hcb]
  refine ⟨rfl, by norm_num [pad], rfl, by decide⟩

/-- Claim C9 (amended): the candidate list pairs each left-pointing offset
with "right" alignment and each right-pointing offset with "left" alignment,
but `on_move` never applies the winner's alignment: the overlay's alignment
is whatever it already was — the fixed "left" set when the chart was
plotted. -/
theorem c9_alignment_never_applied (axb : PixRect)
    (extent : ℚ × ℚ → PixRect) (st : OverlayBoxState) :
    (on_move_overlay axb extent st).align = st.align ∧
      plot_overlay_state.align = "left" ∧
      (∀ c ∈ candidates, c.2.2 = if c.1 < 0 then "right" else "left") := by
  refine ⟨?_, rfl, by decide⟩
  unfold on_move_overlay
  cases choose_best axb extent <;> rfl

/-- Witness for C9 (amended) on the demo geometry. -/
theorem c9_alignment_never_applied_witness :
    (on_move_overlay probeDemoAx probeDemoExtent plot_overlay_state).align =
        plot_overlay_state.align ∧
      plot_overlay_state.align = "left" ∧
      (∀ c ∈ candidates, c.2.2 = if c.1 < 0 then "right" else "left") :=
  c9_alignment_never_applied probeDemoAx probeDemoExtent plot_overlay_state

end Rebalance
